import Mathlib

/-!
Shallow embedding of the hiring-decision extraction and scoring-reconciliation
core of the DeepHire interview backend (backend/app/main.py, function
parse_hiring_decision, lines 139-229), together with the regular-expression
searches it performs.  Strings are modelled as lists of characters; Python
case folding is modelled by Char.toLower (all inputs of interest are ASCII);
the float constants 0.4 and 0.3 and Python round(x, 2) are modelled by exact
rational arithmetic (every value reaching round here is a multiple of 1/10,
so no rounding tie can occur and the floating-point drift of CPython is below
every threshold compared against); random.randint(a, b) is modelled by an
injectable uniform source r, mapped into [a, b].
-/

namespace DeepHire

/-- Python strings, modelled as lists of characters. -/
abbrev Str : Type := List Char

/-- Literal string to character-list conversion. -/
def chars (s : String) : Str := s.toList

/-- Python str.lower, character-wise (ASCII scope). -/
def lowerStr (s : Str) : Str := s.map Char.toLower

/-- Membership of a Python regex whitespace class character (pattern \s),
ASCII scope. -/
def isPyWS (c : Char) : Bool :=
  c == ' ' || c == '\t' || c == '\n' || c == '\r' || c == '\x0b' || c == '\x0c'

/-- Python str.replace applied with arguments " " and "", i.e. removal of
every space character. -/
def despace (s : Str) : Str := s.filter (fun c => !(c == ' '))

/-- Python str.strip: removal of leading and trailing whitespace. -/
def stripWS (s : Str) : Str :=
  ((s.dropWhile isPyWS).reverse.dropWhile isPyWS).reverse

/-- Whether pat is a leading segment of s. -/
def startsList : Str → Str → Bool
  | [], _ => true
  | _ :: _, [] => false
  | p :: ps, c :: cs => c == p && startsList ps cs

/-- Python substring membership: pat occurs contiguously inside s. -/
def containsSub (pat : Str) : Str → Bool
  | [] => startsList pat []
  | c :: t => startsList pat (c :: t) || containsSub pat t

/-- Case-sensitive literal regex fragment: consume pat from the front of s
and return the remainder, or fail. -/
def dropLit : Str → Str → Option Str
  | [], s => some s
  | _ :: _, [] => none
  | q :: ps, c :: cs => if c == q then dropLit ps cs else none

/-- Case-insensitive literal regex fragment (pattern given in lower case):
consume a case variant of pat from the front of s, returning the consumed
text in its original case together with the remainder. -/
def dropLitCI : Str → Str → Option (Str × Str)
  | [], s => some ([], s)
  | _ :: _, [] => none
  | q :: ps, c :: cs =>
      if c.toLower == q then
        (dropLitCI ps cs).map (fun x => (c :: x.1, x.2))
      else none

/-- Second alternative of the group of the status pattern
Decision:\s*(Hired|Not\s*Hired)\. anchored after the Decision: literal and
the following whitespace: Not\s*Hired followed by a literal dot.  Returns
the text matched by the capture group. -/
def matchDecisionAlt2 (r1 : Str) : Option Str :=
  match dropLitCI (chars "not") r1 with
  | none => none
  | some (u1, r3) =>
    match dropLitCI (chars "hired") (r3.dropWhile isPyWS) with
    | none => none
    | some (u2, r5) =>
      if r5.head? = some '.' then some (u1 ++ r3.takeWhile isPyWS ++ u2)
      else none

/-- The status pattern Decision:\s*(Hired|Not\s*Hired)\. (re.I) anchored at
the start of s, with the backtracking order of the Python engine: the
whitespace run is committed greedily (the group starts with a non-space
character, so no backtrack into \s* can succeed), the first alternative is
tried before the second.  Returns the text of the capture group. -/
def matchDecisionAt (s : Str) : Option Str :=
  match dropLitCI (chars "decision:") s with
  | none => none
  | some (_, r0) =>
    match dropLitCI (chars "hired") (r0.dropWhile isPyWS) with
    | some (u, r2) =>
        if r2.head? = some '.' then some u else matchDecisionAlt2 (r0.dropWhile isPyWS)
    | none => matchDecisionAlt2 (r0.dropWhile isPyWS)

/-- re.search of the status pattern: leftmost start position at which the
anchored match succeeds. -/
def searchDecision : Str → Option Str
  | [] => none
  | c :: t =>
    match matchDecisionAt (c :: t) with
    | some g => some g
    | none => searchDecision t

/-- Lazy group of the reasons pattern Reasons:\s*(.*?)(?:\. Score:|$) with
re.DOTALL: the shortest segment after which either the literal terminator
". Score:" matches or the anchor $ fires ($ without re.MULTILINE matches at
the end of the string or just before a newline that ends the string); at
equal length the literal alternative is tried first. -/
def lazyReasons : Str → Str
  | [] => []
  | c :: t =>
      if (dropLit (chars ". Score:") (c :: t)).isSome then []
      else if c = '\n' ∧ t = [] then []
      else c :: lazyReasons t

/-- re.search of the reasons pattern (case-sensitive): the pattern succeeds
at exactly the occurrences of the literal "Reasons:" (the tail of the
pattern never fails), so the search finds the leftmost occurrence, commits
the greedy whitespace run and extracts the lazy group. -/
def searchReasons : Str → Option Str
  | [] => none
  | c :: t =>
    match dropLit (chars "Reasons:") (c :: t) with
    | some r0 => some (lazyReasons (r0.dropWhile isPyWS))
    | none => searchReasons t

/-- Python int() applied to a string of decimal digits. -/
def digitsToNat (s : Str) : ℕ :=
  s.foldl (fun acc c => acc * 10 + (c.toNat - 48)) 0

/-- The score pattern
Technical Depth:\s*(\d+)/100,\s*Communication:\s*(\d+)/100,\s*Problem-Solving:\s*(\d+)/100,\s*Total:\s*(\d+)/100
(re.I) anchored at the start of s.  Every \s* is followed by a non-space
character and every \d+ by a slash, so greedy matching with backtracking
coincides with maximal munch.  Returns the four digit groups as naturals. -/
def matchScoresAt (s : Str) : Option (ℕ × ℕ × ℕ × ℕ) :=
  match dropLitCI (chars "technical depth:") s with
  | none => none
  | some (_, a0) =>
  let a1 := a0.dropWhile isPyWS
  let d1 := a1.takeWhile Char.isDigit
  if d1 = [] then none else
  match dropLit (chars "/100,") (a1.dropWhile Char.isDigit) with
  | none => none
  | some b0 =>
  match dropLitCI (chars "communication:") (b0.dropWhile isPyWS) with
  | none => none
  | some (_, b2) =>
  let b3 := b2.dropWhile isPyWS
  let d2 := b3.takeWhile Char.isDigit
  if d2 = [] then none else
  match dropLit (chars "/100,") (b3.dropWhile Char.isDigit) with
  | none => none
  | some c0 =>
  match dropLitCI (chars "problem-solving:") (c0.dropWhile isPyWS) with
  | none => none
  | some (_, c2) =>
  let c3 := c2.dropWhile isPyWS
  let d3 := c3.takeWhile Char.isDigit
  if d3 = [] then none else
  match dropLit (chars "/100,") (c3.dropWhile Char.isDigit) with
  | none => none
  | some e0 =>
  match dropLitCI (chars "total:") (e0.dropWhile isPyWS) with
  | none => none
  | some (_, e2) =>
  let e3 := e2.dropWhile isPyWS
  let d4 := e3.takeWhile Char.isDigit
  if d4 = [] then none else
  match dropLit (chars "/100") (e3.dropWhile Char.isDigit) with
  | none => none
  | some _ => some (digitsToNat d1, digitsToNat d2, digitsToNat d3, digitsToNat d4)

/-- re.search of the score pattern: leftmost anchored success. -/
def searchScores : Str → Option (ℕ × ℕ × ℕ × ℕ)
  | [] => none
  | c :: t =>
    match matchScoresAt (c :: t) with
    | some q => some q
    | none => searchScores t

/-- Python round(x, 2), over exact rationals.  Every argument it receives in
this development is a multiple of 1/10, so no rounding tie arises and the
half-to-even tie rule of Python never fires. -/
def pyRound2 (x : ℚ) : ℚ := ((round (x * 100) : ℤ) : ℚ) / 100

/-- The weighted total of main.py:
round(technical_depth * 0.4 + communication * 0.3 + problem_solving * 0.3, 2),
the float constants modelled exactly. -/
def calcTotal (t c p : ℕ) : ℚ :=
  pyRound2 ((t : ℚ) * (4 / 10) + (c : ℚ) * (3 / 10) + (p : ℚ) * (3 / 10))

/-- random.randint(a, b) behind an injectable uniform source r; for a ≤ b
the result ranges over exactly the closed interval from a to b. -/
def randint (a b r : ℕ) : ℕ := a + r % (b + 1 - a)

/-- The scores dictionary of a parsed decision.  The three sub-scores are the
nonnegative integers produced by int() on \d+ groups or by random.randint;
the total starts as such an integer but may be replaced by the rounded
weighted float, hence it is a rational. -/
structure Scores where
  technical_depth : ℕ
  communication : ℕ
  problem_solving : ℕ
  total : ℚ
deriving DecidableEq

/-- The decision record assembled by parse_hiring_decision. -/
structure Decision where
  status : Str
  reasons : Str
  scores : Scores
deriving DecidableEq

/-- Fallback score generation of main.py lines 175-184 and 188-197 (the two
blocks are textually identical): each sub-score is sampled from the band
selected by the status, the total is set and then immediately overwritten
with the recomputed weighted value. -/
def fallbackScores (decision : Str) (r1 r2 r3 : ℕ) : Scores :=
  let t := if decision = chars "hired" then randint 60 85 r1 else randint 40 65 r1
  let c := if decision = chars "hired" then randint 65 90 r2 else randint 45 70 r2
  let p := if decision = chars "hired" then randint 60 85 r3 else randint 40 65 r3
  { technical_depth := t, communication := c, problem_solving := p,
    total := calcTotal t c p }

/-- Validation and total reconciliation of main.py lines 163-184: all four
extracted values must lie in [0, 100] (the lower bound is automatic for
naturals, as it is for Python ints parsed from digit groups); on a valid
quadruple the total is replaced by the recomputed value exactly when it
deviates from it by more than 1; otherwise the whole quadruple is discarded
for fallback scores. -/
def reconcile (t c p tot : ℕ) (decision : Str) (r1 r2 r3 : ℕ) : Scores :=
  if t ≤ 100 ∧ c ≤ 100 ∧ p ≤ 100 ∧ tot ≤ 100 then
    if 1 < |calcTotal t c p - (tot : ℚ)| then
      { technical_depth := t, communication := c, problem_solving := p,
        total := calcTotal t c p }
    else
      { technical_depth := t, communication := c, problem_solving := p,
        total := (tot : ℚ) }
  else fallbackScores decision r1 r2 r3

/-- Status extraction of main.py lines 143-144: the matched group is lowered
and its spaces removed; with no match the status defaults to "hired" when
the text contains "hired" (case-insensitively) and to "not hired"
otherwise. -/
def decisionOf (result : Str) : Str :=
  match searchDecision result with
  | some g => despace (lowerStr g)
  | none =>
      if containsSub (chars "hired") (lowerStr result) then chars "hired"
      else chars "not hired"

/-- Reasons extraction of main.py lines 147-148. -/
def reasonsOf (result : Str) : Str :=
  match searchReasons result with
  | some g => stripWS g
  | none => chars "No specific reasons provided."

/-- Score extraction and reconciliation of main.py lines 151-197. -/
def scoresOf (result : Str) (r1 r2 r3 : ℕ) : Scores :=
  match searchScores result with
  | some (t, c, p, tot) => reconcile t c p tot (decisionOf result) r1 r2 r3
  | none => fallbackScores (decisionOf result) r1 r2 r3

/-- The body of the try block of parse_hiring_decision (lines 142-205). -/
def parseBody (result : Str) (r1 r2 r3 : ℕ) : Decision :=
  { status := decisionOf result, reasons := reasonsOf result,
    scores := scoresOf result r1 r2 r3 }

/-- The try block as a fallible computation.  For string inputs no operation
inside it can raise in CPython (the regex searches, group accesses guarded by
the match tests, int() on digit groups, round, abs and randint on constant
bounds are all total), so the computation always produces a value. -/
def parseAttempt (result : Str) (r1 r2 r3 : ℕ) : Except String Decision :=
  Except.ok (parseBody result r1 r2 r3)

/-- The ultimate fallback of the except handler (lines 206-226): status
"not hired", a fixed reasons string, sub-scores from the lower bands and the
recomputed total. -/
def ultimateFallback (r1 r2 r3 : ℕ) : Decision :=
  let t := randint 40 65 r1
  let c := randint 45 70 r2
  let p := randint 40 65 r3
  { status := chars "not hired",
    reasons := chars "Unable to parse decision due to malformed response.",
    scores := { technical_depth := t, communication := c, problem_solving := p,
                total := calcTotal t c p } }

/-- The except handler of parse_hiring_decision, applied to whatever
exception escapes the try block. -/
def handleParseError (_e : String) (r1 r2 r3 : ℕ) : Decision :=
  ultimateFallback r1 r2 r3

/-- The trigger condition of line 140. -/
def trigger (result question : Str) : Bool :=
  containsSub (chars "hired") (lowerStr result)
    || containsSub (chars "not hired") (lowerStr result)
    || (lowerStr question == chars "end interview")

/-- parse_hiring_decision of main.py lines 139-229: the decision field of the
returned dictionary, none standing for Python None. -/
def parse_hiring_decision (result question : Str) (r1 r2 r3 : ℕ) : Option Decision :=
  if trigger result question then
    some (match parseAttempt result r1 r2 r3 with
          | Except.ok d => d
          | Except.error e => handleParseError e r1 r2 r3)
  else none

/-- The fallback band policy, keyed by the status exactly as the code keys
its randint bounds: the hired bands when the status equals "hired", the
lower bands otherwise. -/
def bandOK (dec : Str) (s : Scores) : Prop :=
  if dec = chars "hired" then
    (60 ≤ s.technical_depth ∧ s.technical_depth ≤ 85)
    ∧ (65 ≤ s.communication ∧ s.communication ≤ 90)
    ∧ (60 ≤ s.problem_solving ∧ s.problem_solving ≤ 85)
  else
    (40 ≤ s.technical_depth ∧ s.technical_depth ≤ 65)
    ∧ (45 ≤ s.communication ∧ s.communication ≤ 70)
    ∧ (40 ≤ s.problem_solving ∧ s.problem_solving ≤ 65)

/-- The shapes a not-hired status string can take in the code: the literal
"not hired" (substring fallback and exception fallback), or the lowered,
space-stripped text matched by the Not\s*Hired alternative, which is "not",
then the non-space whitespace the pattern absorbed, then "hired"
(for the plain match "Not Hired" this is exactly "nothired"). -/
def notHiredForm (s : Str) : Prop :=
  s = chars "not hired"
  ∨ ∃ w : Str, (∀ ch ∈ w, isPyWS ch = true ∧ ¬ ch = ' ') ∧ s = chars "not" ++ w ++ chars "hired"

/-- The worked example text of the specification: a fully formatted verdict
whose reported total 76 is consistent with the sub-scores. -/
def exampleHiredText : Str :=
  chars "Decision: Hired. Reasons: Strong system design skills. Score: Technical Depth: 80/100, Communication: 70/100, Problem-Solving: 75/100, Total: 76/100."

/-- The same verdict shape with an inconsistent reported total 95. -/
def mismatchTotalText : Str :=
  chars "Decision: Hired. Reasons: x. Score: Technical Depth: 80/100, Communication: 70/100, Problem-Solving: 75/100, Total: 95/100."

example : searchDecision (chars "Decision: Not Hired. blah") = some (chars "Not Hired") := by
  decide

example : searchDecision (chars "Decision: Hired. blah") = some (chars "Hired") := by decide

example : decisionOf (chars "not hired, weak answers") = chars "hired" := by decide

example :
    searchReasons (chars "Decision: Hired. Reasons: Strong work. Score: 1")
      = some (chars "Strong work") := by decide

example :
    searchScores (chars "Score: Technical Depth: 80/100, Communication: 70/100, Problem-Solving: 75/100, Total: 76/100.")
      = some (80, 70, 75, 76) := by decide

/-! Arithmetic facts about the weighted total. -/

/-- The weighted rounded total is exactly the integer combination over 10:
the argument of round is always a multiple of 1/10, so rounding to two
decimal places is the identity. -/
theorem calcTotal_eq (t c p : ℕ) :
    calcTotal t c p = ((4 * t + 3 * c + 3 * p : ℕ) : ℚ) / 10 := by
  unfold calcTotal pyRound2
  have h1 : ((t : ℚ) * (4 / 10) + (c : ℚ) * (3 / 10) + (p : ℚ) * (3 / 10)) * 100
      = ((10 * (4 * t + 3 * c + 3 * p) : ℤ) : ℚ) := by
    push_cast
    ring
  rw [h1, round_intCast]
  push_cast
  field_simp
  ring

theorem calcTotal_nonneg (t c p : ℕ) : 0 ≤ calcTotal t c p := by
  rw [calcTotal_eq]
  positivity

theorem calcTotal_le_100 (t c p : ℕ) (ht : t ≤ 100) (hc : c ≤ 100) (hp : p ≤ 100) :
    calcTotal t c p ≤ 100 := by
  rw [calcTotal_eq]
  rw [div_le_iff₀ (by norm_num : (0:ℚ) < 10)]
  have h1 : ((4 * t + 3 * c + 3 * p : ℕ) : ℚ) ≤ ((1000 : ℕ) : ℚ) := by
    exact_mod_cast Nat.add_le_add (Nat.add_le_add
      (Nat.mul_le_mul_left 4 ht) (Nat.mul_le_mul_left 3 hc)) (Nat.mul_le_mul_left 3 hp)
  calc ((4 * t + 3 * c + 3 * p : ℕ) : ℚ) ≤ ((1000 : ℕ) : ℚ) := h1
    _ = 100 * 10 := by norm_num

theorem randint_ge (a b r : ℕ) : a ≤ randint a b r := Nat.le_add_right a _

theorem randint_le (a b r : ℕ) (h : a ≤ b) : randint a b r ≤ b := by
  unfold randint
  have hpos : 0 < b + 1 - a := by omega
  have := Nat.mod_lt r hpos
  omega

/-- Inverting the top-level branch: a non-null result is exactly the body of
the try block (which never raises). -/
theorem parse_eq_some (result question : Str) (r1 r2 r3 : ℕ) (d : Decision)
    (h : parse_hiring_decision result question r1 r2 r3 = some d) :
    d = parseBody result r1 r2 r3 := by
  unfold parse_hiring_decision at h
  split at h
  · simp only [parseAttempt, Option.some.injEq] at h
    exact h.symm
  · cases h

/-- C1.  The claim states that when the literal pattern is absent but
"hired" occurs, the status defaults to hired unless "not hired" occurs, in
which case it defaults to not_hired, and in particular that the text
"not hired, weak answers" with triggering question "end interview" yields a
not-hired status.  The code disagrees: its default tests only membership of
the substring "hired", which is also true of every text containing
"not hired", so it returns the status "hired" on that very input. -/
theorem C1_not_hired_text_defaults_to_hired :
    (parse_hiring_decision (chars "not hired, weak answers") (chars "end interview") 0 0 0).map
        Decision.status = some (chars "hired")
    ∧ ¬ ((parse_hiring_decision (chars "not hired, weak answers") (chars "end interview") 0 0 0).map
        Decision.status = some (chars "not hired")) := by
  constructor
  · decide
  · decide

/-- C2.  On a valid extracted quadruple the reported total is replaced by
the recomputed weighted total exactly when the two differ by more than 1,
and in that case the returned total is not the reported one; otherwise the
reported total is kept unchanged. -/
theorem C2_total_mismatch_reconciliation (t c p tot : ℕ) (dec : Str) (r1 r2 r3 : ℕ)
    (ht : t ≤ 100) (hc : c ≤ 100) (hp : p ≤ 100) (htot : tot ≤ 100) :
    (reconcile t c p tot dec r1 r2 r3).total
        = (if 1 < |calcTotal t c p - (tot : ℚ)| then calcTotal t c p else (tot : ℚ))
      ∧ (¬ 1 < |calcTotal t c p - (tot : ℚ)|
          ∨ ¬ (reconcile t c p tot dec r1 r2 r3).total = (tot : ℚ)) := by
  unfold reconcile
  rw [if_pos ⟨ht, hc, hp, htot⟩]
  by_cases h : 1 < |calcTotal t c p - (tot : ℚ)|
  · rw [if_pos h, if_pos h]
    refine ⟨rfl, Or.inr ?_⟩
    intro hEq
    have h2 : calcTotal t c p = (tot : ℚ) := hEq
    rw [h2, sub_self, abs_zero] at h
    exact absurd h (by norm_num)
  · rw [if_neg h, if_neg h]
    exact ⟨rfl, Or.inl h⟩

/-- Witness for C2 at the quadruple (80, 70, 75) with reported total 95:
the computed total is 75.5, the deviation 19.5 exceeds 1, so the computed
total is returned. -/
theorem C2_witness :
    ((80 ≤ 100 ∧ 70 ≤ 100 ∧ 75 ≤ 100 ∧ 95 ≤ 100)
      ∧ ((reconcile 80 70 75 95 (chars "hired") 0 0 0).total
          = (if 1 < |calcTotal 80 70 75 - (95 : ℚ)| then calcTotal 80 70 75 else (95 : ℚ))
        ∧ (¬ 1 < |calcTotal 80 70 75 - (95 : ℚ)|
            ∨ ¬ (reconcile 80 70 75 95 (chars "hired") 0 0 0).total = (95 : ℚ)))) :=
  ⟨by norm_num,
   C2_total_mismatch_reconciliation 80 70 75 95 (chars "hired") 0 0 0
     (by norm_num) (by norm_num) (by norm_num) (by norm_num)⟩

/-- C7, counterexample.  The claim asserts that reconciliation returns the
recomputed weighted total exactly, regardless of the reported total.  At
the valid quadruple (80, 70, 75) with reported total 76 the computed total
is 75.5; the deviation 0.5 is within the tolerance, so the code keeps the
reported 76, which differs from the computed value. -/
theorem C7_counterexample :
    (reconcile 80 70 75 76 (chars "hired") 0 0 0).total = (76 : ℚ)
    ∧ calcTotal 80 70 75 = (151 : ℚ) / 2
    ∧ ¬ ((76 : ℚ) = (151 : ℚ) / 2) := by
  have hcalc : calcTotal 80 70 75 = (151 : ℚ) / 2 := by
    rw [calcTotal_eq]
    norm_num
  have habs : ¬ 1 < |calcTotal 80 70 75 - ((76 : ℕ) : ℚ)| := by
    rw [hcalc, show (151 : ℚ) / 2 - ((76 : ℕ) : ℚ) = -(1 / 2) from by push_cast; norm_num,
      abs_neg, abs_of_nonneg (by norm_num : (0:ℚ) ≤ 1 / 2)]
    norm_num
  refine ⟨?_, hcalc, by norm_num⟩
  unfold reconcile
  rw [if_pos (by norm_num), if_neg habs]
  norm_num

/-- C7, amended.  For a valid quadruple, reconciliation returns the
recomputed weighted total when it deviates from the reported total by more
than 1, and returns the reported total itself otherwise. -/
theorem C7_amended_total (t c p tot : ℕ) (dec : Str) (r1 r2 r3 : ℕ)
    (ht : t ≤ 100) (hc : c ≤ 100) (hp : p ≤ 100) (htot : tot ≤ 100) :
    (reconcile t c p tot dec r1 r2 r3).total
      = if 1 < |calcTotal t c p - (tot : ℚ)| then calcTotal t c p else (tot : ℚ) := by
  unfold reconcile
  rw [if_pos ⟨ht, hc, hp, htot⟩]
  by_cases h : 1 < |calcTotal t c p - (tot : ℚ)|
  · rw [if_pos h, if_pos h]
  · rw [if_neg h, if_neg h]

/-- Witness for the amended C7 at the quadruple (100, 0, 0) with reported
total 0: the computed total 40 deviates by more than 1 and is returned. -/
theorem C7_amended_witness :
    ((100 ≤ 100 ∧ 0 ≤ 100 ∧ 0 ≤ 100 ∧ 0 ≤ 100)
      ∧ (reconcile 100 0 0 0 (chars "hired") 0 0 0).total
          = if 1 < |calcTotal 100 0 0 - (0 : ℚ)| then calcTotal 100 0 0 else (0 : ℚ)) :=
  ⟨by norm_num,
   C7_amended_total 100 0 0 0 (chars "hired") 0 0 0
     (by norm_num) (by norm_num) (by norm_num) (by norm_num)⟩

/-! Structural lemmas about the string scanners. -/

theorem startsList_append_containsSub (a p : Str) :
    ∀ s : Str, startsList (a ++ p) s = true → containsSub p s = true := by
  induction a with
  | nil =>
    intro s h
    rw [List.nil_append] at h
    cases s with
    | nil => exact h
    | cons c t =>
      unfold containsSub
      rw [h]
      rfl
  | cons x a2 ih =>
    intro s h
    cases s with
    | nil => simp [startsList] at h
    | cons c t =>
      simp only [List.cons_append, startsList, Bool.and_eq_true] at h
      unfold containsSub
      rw [ih t h.2]
      simp

theorem containsSub_of_append (a p : Str) :
    ∀ s : Str, containsSub (a ++ p) s = true → containsSub p s = true := by
  intro s
  induction s with
  | nil =>
    intro h
    unfold containsSub at h
    cases a with
    | nil => simpa using h
    | cons x a2 => simp [startsList] at h
  | cons c t ih =>
    intro h
    unfold containsSub at h
    rw [Bool.or_eq_true] at h
    rcases h with h | h
    · exact startsList_append_containsSub a p (c :: t) h
    · unfold containsSub
      rw [ih h]
      simp

theorem containsSub_hired_of_not_hired (s : Str)
    (h : containsSub (chars "not hired") s = true) :
    containsSub (chars "hired") s = true := by
  have hsplit : chars "not hired" = chars "not " ++ chars "hired" := by decide
  rw [hsplit] at h
  exact containsSub_of_append (chars "not ") (chars "hired") s h

theorem dropLit_isSome_eq_startsList (p : Str) :
    ∀ s : Str, (dropLit p s).isSome = startsList p s := by
  induction p with
  | nil => intro s; rfl
  | cons q ps ih =>
    intro s
    cases s with
    | nil => rfl
    | cons c t =>
      unfold dropLit startsList
      by_cases h : (c == q) = true
      · rw [if_pos h, h, Bool.true_and]
        exact ih t
      · rw [if_neg h]
        rw [Bool.not_eq_true] at h
        rw [h, Bool.false_and]
        rfl

/-- The reasons pattern succeeds exactly at occurrences of its literal
label, so a text without the exact substring yields no match. -/
theorem searchReasons_eq_none (s : Str)
    (h : containsSub (chars "Reasons:") s = false) : searchReasons s = none := by
  induction s with
  | nil => rfl
  | cons c t ih =>
    unfold containsSub at h
    rw [Bool.or_eq_false_iff] at h
    obtain ⟨h1, h2⟩ := h
    unfold searchReasons
    cases hx : dropLit (chars "Reasons:") (c :: t) with
    | some r0 =>
      have hs := dropLit_isSome_eq_startsList (chars "Reasons:") (c :: t)
      rw [hx, h1] at hs
      cases hs
    | none => exact ih h2

/-- C3.  When the text contains no case variant of "hired" (hence none of
"not hired" either) and the triggering question is not, case-insensitively,
"end interview", the function returns the explicit null decision and never
synthesizes one. -/
theorem C3_no_trigger_returns_none (result question : Str) (r1 r2 r3 : ℕ)
    (h1 : containsSub (chars "hired") (lowerStr result) = false)
    (h2 : ¬ lowerStr question = chars "end interview") :
    parse_hiring_decision result question r1 r2 r3 = none := by
  have hnh : containsSub (chars "not hired") (lowerStr result) = false := by
    cases hx : containsSub (chars "not hired") (lowerStr result) with
    | false => rfl
    | true =>
      rw [containsSub_hired_of_not_hired (lowerStr result) hx] at h1
      cases h1
  have ht : trigger result question = false := by
    unfold trigger
    rw [h1, hnh]
    simp [h2]
  unfold parse_hiring_decision
  rw [ht]
  rfl

/-- Witness for C3: an ordinary mid-interview exchange with no verdict
token and a question different from the control phrase. -/
theorem C3_witness :
    ((containsSub (chars "hired") (lowerStr (chars "That is interesting, tell me more.")) = false
        ∧ ¬ lowerStr (chars "What is a closure?") = chars "end interview")
      ∧ parse_hiring_decision (chars "That is interesting, tell me more.")
          (chars "What is a closure?") 0 0 0 = none) :=
  ⟨⟨by decide, by decide⟩,
   C3_no_trigger_returns_none (chars "That is interesting, tell me more.")
     (chars "What is a closure?") 0 0 0 (by decide) (by decide)⟩

/-- C4.  For every pair of string inputs the function returns normally: the
try block is a total computation that always produces a decision record
with status, reasons and scores (it never raises for string inputs), the
top level returns either the explicit null sentinel or that record, and the
except handler converts any exception value to the ultimate fallback
decision with status "not hired" and the fixed unable-to-parse reasons
string. -/
theorem C4_total_and_handler (result question : Str) (err : String) (r1 r2 r3 : ℕ) :
    parseAttempt result r1 r2 r3 = Except.ok (parseBody result r1 r2 r3)
    ∧ (parse_hiring_decision result question r1 r2 r3 = none
        ∨ parse_hiring_decision result question r1 r2 r3 = some (parseBody result r1 r2 r3))
    ∧ handleParseError err r1 r2 r3 = ultimateFallback r1 r2 r3
    ∧ (ultimateFallback r1 r2 r3).status = chars "not hired"
    ∧ (ultimateFallback r1 r2 r3).reasons
        = chars "Unable to parse decision due to malformed response." := by
  refine ⟨rfl, ?_, rfl, rfl, rfl⟩
  unfold parse_hiring_decision
  by_cases h : trigger result question = true
  · right
    rw [if_pos h]
    rfl
  · left
    rw [if_neg h]

/-- C10.  The reasons label is matched case-sensitively (the reasons search
is the only one compiled without re.I): whenever the exact text "Reasons:"
does not occur in a triggered input, the returned reasons field is the
fixed placeholder, even if a differently-cased label such as "reasons:" is
present. -/
theorem C10_reasons_label_case_sensitive (result question : Str) (r1 r2 r3 : ℕ) (d : Decision)
    (hno : containsSub (chars "Reasons:") result = false)
    (hd : parse_hiring_decision result question r1 r2 r3 = some d) :
    d.reasons = chars "No specific reasons provided." := by
  have hbody := parse_eq_some result question r1 r2 r3 d hd
  subst hbody
  show reasonsOf result = _
  unfold reasonsOf
  rw [searchReasons_eq_none result hno]

/-- Witness for C10: a triggered text whose rationale is introduced only by
the lower-case label "reasons:"; the placeholder is returned. -/
theorem C10_witness :
    ((containsSub (chars "Reasons:") (chars "not hired. reasons: too vague") = false
        ∧ parse_hiring_decision (chars "not hired. reasons: too vague")
            (chars "end interview") 0 0 0
          = some { status := chars "hired",
                   reasons := chars "No specific reasons provided.",
                   scores := { technical_depth := 60, communication := 65,
                               problem_solving := 60, total := calcTotal 60 65 60 } })
      ∧ ({ status := chars "hired",
           reasons := chars "No specific reasons provided.",
           scores := { technical_depth := 60, communication := 65,
                       problem_solving := 60, total := calcTotal 60 65 60 } } : Decision).reasons
          = chars "No specific reasons provided.") :=
  ⟨⟨by decide, by rfl⟩,
   C10_reasons_label_case_sensitive (chars "not hired. reasons: too vague")
     (chars "end interview") 0 0 0 _ (by decide) (by rfl)⟩

/-! Invariants of the score paths. -/

theorem fallbackScores_total (dec : Str) (r1 r2 r3 : ℕ) :
    (fallbackScores dec r1 r2 r3).total
      = calcTotal (fallbackScores dec r1 r2 r3).technical_depth
          (fallbackScores dec r1 r2 r3).communication
          (fallbackScores dec r1 r2 r3).problem_solving := rfl

theorem reconcile_total_invariant (t c p tot : ℕ) (dec : Str) (r1 r2 r3 : ℕ) :
    |(reconcile t c p tot dec r1 r2 r3).total
        - calcTotal (reconcile t c p tot dec r1 r2 r3).technical_depth
            (reconcile t c p tot dec r1 r2 r3).communication
            (reconcile t c p tot dec r1 r2 r3).problem_solving| ≤ 1 := by
  unfold reconcile
  split
  · split
    · show |calcTotal t c p - calcTotal t c p| ≤ 1
      rw [sub_self, abs_zero]
      norm_num
    · rename_i hnot
      show |(tot : ℚ) - calcTotal t c p| ≤ 1
      rw [abs_sub_comm]
      exact le_of_not_lt hnot
  · rw [← fallbackScores_total, sub_self, abs_zero]
    norm_num

theorem scoresOf_total_invariant (result : Str) (r1 r2 r3 : ℕ) :
    |(scoresOf result r1 r2 r3).total
        - calcTotal (scoresOf result r1 r2 r3).technical_depth
            (scoresOf result r1 r2 r3).communication
            (scoresOf result r1 r2 r3).problem_solving| ≤ 1 := by
  unfold scoresOf
  cases hx : searchScores result with
  | some q =>
    obtain ⟨t, c, p, tot⟩ := q
    exact reconcile_total_invariant t c p tot (decisionOf result) r1 r2 r3
  | none =>
    rw [← fallbackScores_total, sub_self, abs_zero]
    norm_num

/-- C5.  Every decision record the function returns keeps its total within
1 of the weighted combination of its own three sub-scores, on every path;
and on the path where a valid extracted total violates that bound, the
computed value replaces the reported total while the three extracted
sub-scores are kept exactly as extracted. -/
theorem C5_total_invariant (result question : Str) (r1 r2 r3 : ℕ) (d : Decision)
    (t c p tot : ℕ) (dec : Str)
    (hd : parse_hiring_decision result question r1 r2 r3 = some d)
    (ht : t ≤ 100) (hc : c ≤ 100) (hp : p ≤ 100) (htot : tot ≤ 100)
    (hmis : 1 < |calcTotal t c p - (tot : ℚ)|) :
    |d.scores.total
        - calcTotal d.scores.technical_depth d.scores.communication d.scores.problem_solving| ≤ 1
    ∧ reconcile t c p tot dec r1 r2 r3
        = { technical_depth := t, communication := c, problem_solving := p,
            total := calcTotal t c p } := by
  have hbody := parse_eq_some result question r1 r2 r3 d hd
  subst hbody
  constructor
  · exact scoresOf_total_invariant result r1 r2 r3
  · unfold reconcile
    rw [if_pos ⟨ht, hc, hp, htot⟩, if_pos hmis]

/-- Witness for C5: a fallback-path input for the invariant, and the
mismatching quadruple (80, 70, 75) with reported total 0 for the
replacement clause. -/
theorem C5_witness :
    ((parse_hiring_decision (chars "hired") (chars "ok") 0 0 0
        = some { status := chars "hired",
                 reasons := chars "No specific reasons provided.",
                 scores := { technical_depth := 60, communication := 65,
                             problem_solving := 60, total := calcTotal 60 65 60 } }
      ∧ 80 ≤ 100 ∧ 70 ≤ 100 ∧ 75 ≤ 100 ∧ 0 ≤ 100
      ∧ 1 < |calcTotal 80 70 75 - ((0 : ℕ) : ℚ)|)
     ∧ (|({ status := chars "hired",
            reasons := chars "No specific reasons provided.",
            scores := { technical_depth := 60, communication := 65,
                        problem_solving := 60, total := calcTotal 60 65 60 } } : Decision).scores.total
          - calcTotal 60 65 60| ≤ 1
        ∧ reconcile 80 70 75 0 (chars "x") 0 0 0
            = { technical_depth := 80, communication := 70, problem_solving := 75,
                total := calcTotal 80 70 75 })) := by
  have hmis : 1 < |calcTotal 80 70 75 - ((0 : ℕ) : ℚ)| := by
    rw [calcTotal_eq, Nat.cast_zero, sub_zero, abs_of_nonneg (by positivity)]
    norm_num
  exact ⟨⟨by rfl, by norm_num, by norm_num, by norm_num, by norm_num, hmis⟩,
    C5_total_invariant (chars "hired") (chars "ok") 0 0 0 _ 80 70 75 0 (chars "x")
      (by rfl) (by norm_num) (by norm_num) (by norm_num) (by norm_num) hmis⟩

/-! The fallback band policy. -/

theorem fallbackScores_band (dec : Str) (r1 r2 r3 : ℕ) :
    bandOK dec (fallbackScores dec r1 r2 r3) := by
  unfold bandOK fallbackScores
  by_cases h : dec = chars "hired"
  · simp only [if_pos h]
    exact ⟨⟨randint_ge 60 85 r1, randint_le 60 85 r1 (by norm_num)⟩,
      ⟨randint_ge 65 90 r2, randint_le 65 90 r2 (by norm_num)⟩,
      ⟨randint_ge 60 85 r3, randint_le 60 85 r3 (by norm_num)⟩⟩
  · simp only [if_neg h]
    exact ⟨⟨randint_ge 40 65 r1, randint_le 40 65 r1 (by norm_num)⟩,
      ⟨randint_ge 45 70 r2, randint_le 45 70 r2 (by norm_num)⟩,
      ⟨randint_ge 40 65 r3, randint_le 40 65 r3 (by norm_num)⟩⟩

/-- C6.  Whenever scores must be synthesized, because the labeled pattern
found nothing or because an extracted value fell outside [0, 100], the
result is exactly the fallback sampling: each sub-score lies in the band
keyed by the status ("hired" versus anything else) and the total is the
weighted combination of the three sampled values, never an independent
sample and never a stale extracted value. -/
theorem C6_fallback_band_policy (result : Str) (r1 r2 r3 t c p tot : ℕ)
    (h : searchScores result = none
      ∨ (searchScores result = some (t, c, p, tot)
          ∧ ¬ (t ≤ 100 ∧ c ≤ 100 ∧ p ≤ 100 ∧ tot ≤ 100))) :
    scoresOf result r1 r2 r3 = fallbackScores (decisionOf result) r1 r2 r3
    ∧ bandOK (decisionOf result) (scoresOf result r1 r2 r3)
    ∧ (scoresOf result r1 r2 r3).total
        = calcTotal (scoresOf result r1 r2 r3).technical_depth
            (scoresOf result r1 r2 r3).communication
            (scoresOf result r1 r2 r3).problem_solving := by
  have heq : scoresOf result r1 r2 r3 = fallbackScores (decisionOf result) r1 r2 r3 := by
    rcases h with h | ⟨h1, h2⟩
    · unfold scoresOf
      rw [h]
    · unfold scoresOf
      rw [h1]
      show reconcile t c p tot (decisionOf result) r1 r2 r3 = _
      unfold reconcile
      rw [if_neg h2]
  refine ⟨heq, ?_, ?_⟩
  · rw [heq]
    exact fallbackScores_band (decisionOf result) r1 r2 r3
  · rw [heq]
    exact fallbackScores_total (decisionOf result) r1 r2 r3

/-- Witness for C6: a triggered text with no score block at all. -/
theorem C6_witness :
    (searchScores (chars "not hired") = none
      ∧ (scoresOf (chars "not hired") 0 0 0
            = fallbackScores (decisionOf (chars "not hired")) 0 0 0
          ∧ bandOK (decisionOf (chars "not hired")) (scoresOf (chars "not hired") 0 0 0)
          ∧ (scoresOf (chars "not hired") 0 0 0).total
              = calcTotal (scoresOf (chars "not hired") 0 0 0).technical_depth
                  (scoresOf (chars "not hired") 0 0 0).communication
                  (scoresOf (chars "not hired") 0 0 0).problem_solving)) :=
  ⟨by decide,
   C6_fallback_band_policy (chars "not hired") 0 0 0 0 0 0 0 (Or.inl (by decide))⟩

/-! Characterization of the extracted status strings. -/

theorem dropLitCI_sound (p : Str) :
    ∀ s u r, dropLitCI p s = some (u, r) → s = u ++ r ∧ lowerStr u = p := by
  induction p with
  | nil =>
    intro s u r h
    unfold dropLitCI at h
    simp only [Option.some.injEq, Prod.mk.injEq] at h
    obtain ⟨hu, hr⟩ := h
    subst hu
    subst hr
    exact ⟨rfl, rfl⟩
  | cons q ps ih =>
    intro s u r h
    cases s with
    | nil => exact absurd h (by simp [dropLitCI])
    | cons c cs =>
      unfold dropLitCI at h
      by_cases hc : (c.toLower == q) = true
      · rw [if_pos hc] at h
        cases hx : dropLitCI ps cs with
        | none =>
          rw [hx] at h
          cases h
        | some pr =>
          obtain ⟨u2, r2⟩ := pr
          rw [hx] at h
          simp only [Option.map_some', Option.some.injEq, Prod.mk.injEq] at h
          obtain ⟨hu, hr⟩ := h
          obtain ⟨h1, h2⟩ := ih cs u2 r2 hx
          subst hu
          subst hr
          rw [beq_iff_eq] at hc
          constructor
          · rw [List.cons_append, ← h1]
          · show c.toLower :: lowerStr u2 = q :: ps
            rw [hc, h2]
      · rw [if_neg hc] at h
        cases h

theorem toLower_of_ws (c : Char) (h : isPyWS c = true) : c.toLower = c := by
  unfold isPyWS at h
  simp only [Bool.or_eq_true, beq_iff_eq] at h
  rcases h with ((((h | h) | h) | h) | h) | h <;> subst h <;> decide

/-- Any group matched by the Not\s*Hired alternative lowers and despaces to
"not", the non-space whitespace the pattern absorbed, then "hired". -/
theorem matchDecisionAlt2_shape (r1 g : Str) (h : matchDecisionAlt2 r1 = some g) :
    notHiredForm (despace (lowerStr g)) := by
  unfold matchDecisionAlt2 at h
  split at h
  · cases h
  · rename_i u1 r3 h1
    split at h
    · cases h
    · rename_i u2 r5 h2
      split at h
      · injection h with hg
        obtain ⟨hs1, hl1⟩ := dropLitCI_sound (chars "not") r1 u1 r3 h1
        obtain ⟨hs2, hl2⟩ := dropLitCI_sound (chars "hired") (r3.dropWhile isPyWS) u2 r5 h2
        subst hg
        right
        refine ⟨(r3.takeWhile isPyWS).filter (fun ch => !(ch == ' ')), ?_, ?_⟩
        · intro ch hch
          have hm := List.mem_filter.mp hch
          refine ⟨List.mem_takeWhile_imp hm.1, ?_⟩
          have h4 := hm.2
          simp only [Bool.not_eq_true', beq_eq_false_iff_ne, ne_eq] at h4
          exact h4
        · have ews : List.map Char.toLower (r3.takeWhile isPyWS) = r3.takeWhile isPyWS := by
            have h5 : ∀ ch ∈ r3.takeWhile isPyWS, Char.toLower ch = id ch := fun ch hch =>
              toLower_of_ws ch (List.mem_takeWhile_imp hch)
            rw [List.map_congr_left h5, List.map_id]
          simp only [lowerStr, despace] at hl1 hl2 ⊢
          rw [List.map_append, List.map_append, List.filter_append, List.filter_append,
            hl1, hl2, ews]
          rw [show List.filter (fun ch => !(ch == ' ')) (chars "not") = chars "not" from by decide,
            show List.filter (fun ch => !(ch == ' ')) (chars "hired") = chars "hired" from by decide]
      · cases h

/-- Any group matched by the full status pattern lowers and despaces either
to "hired" or to a not-hired form. -/
theorem matchDecisionAt_shape (s g : Str) (h : matchDecisionAt s = some g) :
    despace (lowerStr g) = chars "hired" ∨ notHiredForm (despace (lowerStr g)) := by
  unfold matchDecisionAt at h
  split at h
  · cases h
  · rename_i u0 r0 h0
    split at h
    · rename_i u r2 h1
      split at h
      · injection h with hg
        subst hg
        left
        obtain ⟨_, hl⟩ := dropLitCI_sound (chars "hired") (r0.dropWhile isPyWS) u r2 h1
        unfold despace
        rw [hl]
        decide
      · exact Or.inr (matchDecisionAlt2_shape _ _ h)
    · exact Or.inr (matchDecisionAlt2_shape _ _ h)

theorem searchDecision_shape (s : Str) :
    ∀ g : Str, searchDecision s = some g →
      despace (lowerStr g) = chars "hired" ∨ notHiredForm (despace (lowerStr g)) := by
  induction s with
  | nil =>
    intro g h
    cases h
  | cons c t ih =>
    intro g h
    unfold searchDecision at h
    cases hx : matchDecisionAt (c :: t) with
    | some g2 =>
      rw [hx] at h
      injection h with h
      subst h
      exact matchDecisionAt_shape (c :: t) g2 hx
    | none =>
      rw [hx] at h
      exact ih g h

/-- Every status the code can produce is "hired" or a not-hired form. -/
theorem decisionOf_shape (result : Str) :
    decisionOf result = chars "hired" ∨ notHiredForm (decisionOf result) := by
  unfold decisionOf
  cases hx : searchDecision result with
  | some g => exact searchDecision_shape result g hx
  | none =>
    by_cases hc : containsSub (chars "hired") (lowerStr result) = true
    · left
      rw [if_pos hc]
    · right
      rw [if_neg hc]
      exact Or.inl rfl

/-! Range bounds on the returned scores. -/

theorem fallbackScores_sub_bounds (dec : Str) (r1 r2 r3 : ℕ) :
    (fallbackScores dec r1 r2 r3).technical_depth ≤ 100
    ∧ (fallbackScores dec r1 r2 r3).communication ≤ 100
    ∧ (fallbackScores dec r1 r2 r3).problem_solving ≤ 100 := by
  have hb := fallbackScores_band dec r1 r2 r3
  unfold bandOK at hb
  by_cases h : dec = chars "hired"
  · rw [if_pos h] at hb
    exact ⟨le_trans hb.1.2 (by norm_num), le_trans hb.2.1.2 (by norm_num),
      le_trans hb.2.2.2 (by norm_num)⟩
  · rw [if_neg h] at hb
    exact ⟨le_trans hb.1.2 (by norm_num), le_trans hb.2.1.2 (by norm_num),
      le_trans hb.2.2.2 (by norm_num)⟩

theorem fallbackScores_total_bounds (dec : Str) (r1 r2 r3 : ℕ) :
    0 ≤ (fallbackScores dec r1 r2 r3).total ∧ (fallbackScores dec r1 r2 r3).total ≤ 100 := by
  obtain ⟨h1, h2, h3⟩ := fallbackScores_sub_bounds dec r1 r2 r3
  rw [fallbackScores_total]
  exact ⟨calcTotal_nonneg _ _ _, calcTotal_le_100 _ _ _ h1 h2 h3⟩

theorem reconcile_bounds (t c p tot : ℕ) (dec : Str) (r1 r2 r3 : ℕ) :
    (reconcile t c p tot dec r1 r2 r3).technical_depth ≤ 100
    ∧ (reconcile t c p tot dec r1 r2 r3).communication ≤ 100
    ∧ (reconcile t c p tot dec r1 r2 r3).problem_solving ≤ 100
    ∧ 0 ≤ (reconcile t c p tot dec r1 r2 r3).total
    ∧ (reconcile t c p tot dec r1 r2 r3).total ≤ 100 := by
  unfold reconcile
  split
  · rename_i hv
    obtain ⟨ht, hc2, hp, htot⟩ := hv
    split
    · exact ⟨ht, hc2, hp, calcTotal_nonneg t c p, calcTotal_le_100 t c p ht hc2 hp⟩
    · refine ⟨ht, hc2, hp, ?_, ?_⟩
      · exact Nat.cast_nonneg tot
      · show (tot : ℚ) ≤ 100
        exact_mod_cast htot
  · obtain ⟨h1, h2, h3⟩ := fallbackScores_sub_bounds dec r1 r2 r3
    obtain ⟨h4, h5⟩ := fallbackScores_total_bounds dec r1 r2 r3
    exact ⟨h1, h2, h3, h4, h5⟩

theorem scoresOf_bounds (result : Str) (r1 r2 r3 : ℕ) :
    (scoresOf result r1 r2 r3).technical_depth ≤ 100
    ∧ (scoresOf result r1 r2 r3).communication ≤ 100
    ∧ (scoresOf result r1 r2 r3).problem_solving ≤ 100
    ∧ 0 ≤ (scoresOf result r1 r2 r3).total
    ∧ (scoresOf result r1 r2 r3).total ≤ 100 := by
  unfold scoresOf
  cases hx : searchScores result with
  | some q =>
    obtain ⟨t, c, p, tot⟩ := q
    exact reconcile_bounds t c p tot (decisionOf result) r1 r2 r3
  | none =>
    obtain ⟨h1, h2, h3⟩ := fallbackScores_sub_bounds (decisionOf result) r1 r2 r3
    obtain ⟨h4, h5⟩ := fallbackScores_total_bounds (decisionOf result) r1 r2 r3
    exact ⟨h1, h2, h3, h4, h5⟩

/-- C8, counterexample.  The claim requires the total of every returned
decision to be an integer.  On a verdict whose reported total 95 deviates
from the computed 75.5 by more than 1, the code stores the recomputed
rounded float 75.5 as the total, which is not an integer (a rational x is
an integer exactly when it equals its own floor). -/
theorem C8_counterexample :
    (parse_hiring_decision mismatchTotalText (chars "ok") 0 0 0).map (fun d => d.scores.total)
      = some ((151 : ℚ) / 2)
    ∧ ¬ ((151 : ℚ) / 2 = ((⌊(151 : ℚ) / 2⌋ : ℤ) : ℚ)) := by
  have hsearch : searchScores mismatchTotalText = some (80, 70, 75, 95) := by decide
  have hmis : 1 < |calcTotal 80 70 75 - ((95 : ℕ) : ℚ)| := by
    rw [calcTotal_eq,
      show ((4 * 80 + 3 * 70 + 3 * 75 : ℕ) : ℚ) / 10 - ((95 : ℕ) : ℚ) = -(39 / 2) from by
        push_cast; norm_num,
      abs_neg, abs_of_nonneg (by norm_num : (0:ℚ) ≤ 39 / 2)]
    norm_num
  have hscores : scoresOf mismatchTotalText 0 0 0
      = { technical_depth := 80, communication := 70, problem_solving := 75,
          total := calcTotal 80 70 75 } := by
    unfold scoresOf
    rw [hsearch]
    show reconcile 80 70 75 95 (decisionOf mismatchTotalText) 0 0 0 = _
    unfold reconcile
    rw [if_pos (by norm_num : (80:ℕ) ≤ 100 ∧ (70:ℕ) ≤ 100 ∧ (75:ℕ) ≤ 100 ∧ (95:ℕ) ≤ 100),
      if_pos hmis]
  have hfloor : ⌊(151 : ℚ) / 2⌋ = (75 : ℤ) := by
    apply Int.floor_eq_iff.mpr
    constructor <;> norm_num
  constructor
  · unfold parse_hiring_decision
    rw [if_pos (by decide : trigger mismatchTotalText (chars "ok") = true)]
    show some ((scoresOf mismatchTotalText 0 0 0).total) = _
    rw [hscores]
    show some (calcTotal 80 70 75) = _
    rw [calcTotal_eq]
    simp only [Option.some.injEq]
    push_cast
    norm_num
  · rw [hfloor]
    push_cast
    norm_num

/-- C8, amended.  Every non-null decision has a status that is "hired" or a
not-hired form (the code leaves several spellings for the latter:
"not hired" on the fallback paths, "nothired" from the matched pattern);
the three sub-scores are integers in [0, 100]; the total is a rational in
[0, 100] that need not be an integer. -/
theorem C8_amended_status_and_ranges (result question : Str) (r1 r2 r3 : ℕ) (d : Decision)
    (hd : parse_hiring_decision result question r1 r2 r3 = some d) :
    (d.status = chars "hired" ∨ notHiredForm d.status)
    ∧ d.scores.technical_depth ≤ 100
    ∧ d.scores.communication ≤ 100
    ∧ d.scores.problem_solving ≤ 100
    ∧ 0 ≤ d.scores.total ∧ d.scores.total ≤ 100 := by
  have hbody := parse_eq_some result question r1 r2 r3 d hd
  subst hbody
  exact ⟨decisionOf_shape result, scoresOf_bounds result r1 r2 r3⟩

/-- Witness for the amended C8 on a fallback-path input. -/
theorem C8_amended_witness :
    (parse_hiring_decision (chars "hired") (chars "ok") 0 0 0
        = some { status := chars "hired", reasons := chars "No specific reasons provided.",
                 scores := { technical_depth := 60, communication := 65,
                             problem_solving := 60, total := calcTotal 60 65 60 } })
    ∧ ((chars "hired" = chars "hired" ∨ notHiredForm (chars "hired"))
       ∧ (60 : ℕ) ≤ 100 ∧ (65 : ℕ) ≤ 100 ∧ (60 : ℕ) ≤ 100
       ∧ 0 ≤ calcTotal 60 65 60 ∧ calcTotal 60 65 60 ≤ 100) :=
  ⟨by rfl,
   C8_amended_status_and_ranges (chars "hired") (chars "ok") 0 0 0 _ (by rfl)⟩

/-- C9, counterexample.  The claim asserts the extracted reasons are
"Strong system design skills." with the trailing period; the terminator
". Score:" of the reasons pattern consumes that period, so the code returns
the text without it. -/
theorem C9_counterexample :
    (parse_hiring_decision exampleHiredText (chars "end interview") 0 0 0).map Decision.reasons
      = some (chars "Strong system design skills")
    ∧ ¬ (chars "Strong system design skills" = chars "Strong system design skills.") := by
  constructor
  · decide
  · decide

/-- C9, amended.  On the worked example text the function returns status
hired, reasons "Strong system design skills" (without the trailing period,
which the score terminator consumes) and the scores 80, 70, 75 with the
reported total 76 kept as-is. -/
theorem C9_amended_example :
    parse_hiring_decision exampleHiredText (chars "end interview") 0 0 0
      = some { status := chars "hired", reasons := chars "Strong system design skills",
               scores := { technical_depth := 80, communication := 70, problem_solving := 75,
                           total := ((76 : ℕ) : ℚ) } } := by
  have hsearch : searchScores exampleHiredText = some (80, 70, 75, 76) := by decide
  have hdec : decisionOf exampleHiredText = chars "hired" := by decide
  have hreas : reasonsOf exampleHiredText = chars "Strong system design skills" := by decide
  have hkeep : ¬ 1 < |calcTotal 80 70 75 - ((76 : ℕ) : ℚ)| := by
    rw [calcTotal_eq,
      show ((4 * 80 + 3 * 70 + 3 * 75 : ℕ) : ℚ) / 10 - ((76 : ℕ) : ℚ) = -(1 / 2) from by
        push_cast; norm_num,
      abs_neg, abs_of_nonneg (by norm_num : (0:ℚ) ≤ 1 / 2)]
    norm_num
  have hscores : scoresOf exampleHiredText 0 0 0
      = { technical_depth := 80, communication := 70, problem_solving := 75,
          total := ((76 : ℕ) : ℚ) } := by
    unfold scoresOf
    rw [hsearch]
    show reconcile 80 70 75 76 (decisionOf exampleHiredText) 0 0 0 = _
    unfold reconcile
    rw [if_pos (by norm_num : (80:ℕ) ≤ 100 ∧ (70:ℕ) ≤ 100 ∧ (75:ℕ) ≤ 100 ∧ (76:ℕ) ≤ 100),
      if_neg hkeep]
  unfold parse_hiring_decision
  rw [if_pos (by decide : trigger exampleHiredText (chars "end interview") = true)]
  show some (parseBody exampleHiredText 0 0 0) = _
  unfold parseBody
  rw [hdec, hreas, hscores]

end DeepHire
